import Mathlib

/-!
Shallow embedding of the connection-lifecycle subsystem of the go-FServer
repository (package `connection`): the per-connection state machine that
couples readiness events, two ring buffers, a pluggable framing protocol and
a loop-affine task queue.

Modelling decisions:
* Bytes are `List Nat`; byte values are opaque to the connection code.
* The two ring buffers are modelled by their byte content (a list consumed
  from the front).  `Write` appends, `Retrieve n` drops `n` from the front,
  `PeekAll` returns the two contiguous halves of the wrap-around region; the
  split point is supplied as an oracle parameter `k` where it matters
  (`handleWrite`), since any split can arise from the ring geometry.
* Nonblocking syscall outcomes are supplied as oracle parameters
  (`WriteRes` / `ReadRes`); `eagain` models the would-block errno.
* The frame context `interface\x7b\x7d` returned by `Protocol.UnPacket` is
  modelled as `Option Nat` (`nil` corresponds to `none`); its value is opaque
  to the connection code.
* All externally visible actions (syscalls, poller interest changes,
  callbacks, pool returns, task queueing, error returns) are recorded in an
  effect trace, so that claims about exact occurrence counts are statable.
* The `activeTime` timestamp swap at the top of `HandleEvent` and the
  timing-wheel rescheduling arithmetic only affect when the idle timer calls
  `Close`; they are irrelevant to the buffer/close behaviour under scrutiny
  and are not part of the state.
-/

namespace FServer

/-- Byte strings, as lists of (opaque) byte values. -/
abbrev Bytes := List Nat

/-- Outcome of one nonblocking `unix.Write`: `ok n` bytes written,
would-block, or any other (fatal) error. -/
inductive WriteRes
  | ok (n : Nat)
  | eagain
  | fatal
deriving DecidableEq

/-- Outcome of one nonblocking `unix.Read` into the loop scratch buffer:
`ok data` is a successful read returning `data = buf[:n]` (so `n = 0` is
`ok []`), plus would-block and fatal errors. -/
inductive ReadRes
  | ok (data : Bytes)
  | eagain
  | fatal
deriving DecidableEq

/-- A task posted to the owning loop via `QueueInLoop`: `Close` posts the
terminal handler, `Send b` posts the pack-then-sendInLoop closure. -/
inductive Task
  | closeT
  | sendT (b : Bytes)
deriving DecidableEq

/-- Externally visible effects of the connection code, in program order. -/
inductive Eff
  | writeSys (data : Bytes)     -- unix.Write attempted with this data
  | readSys                     -- unix.Read attempted
  | enableRead                  -- loop.EnableRead
  | enableReadWrite             -- loop.EnableReadWrite
  | deleteFd                    -- loop.DeleteFdInLoop
  | closeFd                     -- unix.Close(fd)
  | onCloseCb                   -- callBack.OnClose
  | poolPutIn                   -- pool.Put(inBuffer)
  | poolPutOut                  -- pool.Put(outBuffer)
  | queued (t : Task)           -- loop.QueueInLoop accepted a task
  | closedErr                   -- ErrConnectionClosed returned to the caller
  | onMsg (ctx : Option Nat) (payload : Bytes)  -- callBack.OnMessage
  | shutdownWR                  -- unix.Shutdown(fd, SHUT_WR)
deriving DecidableEq

/-- Connection state: the liveness flag, both ring-buffer contents, the
poller write-interest bit for this fd, and the owning loop's task queue. -/
structure ConnState where
  connected : Bool
  inBuffer : Bytes
  outBuffer : Bytes
  writeInterest : Bool
  tasks : List Task
deriving DecidableEq

/-- State right after `New`: connected, both buffers fresh from the pool,
poller interest read-only, no queued tasks. -/
def initConn : ConnState :=
  { connected := true, inBuffer := [], outBuffer := [], writeInterest := false, tasks := [] }

/-- `Connection.handleClose`: guarded by `connected.Get()`; sets the flag
false, removes the fd from the poller (write interest gone), fires `OnClose`,
closes the fd and returns both ring buffers to the pool. -/
def handleClose (s : ConnState) : ConnState × List Eff :=
  if s.connected then
    ({ s with connected := false, writeInterest := false },
      [Eff.deleteFd, Eff.onCloseCb, Eff.closeFd, Eff.poolPutIn, Eff.poolPutOut])
  else (s, [])

/-- `Connection.sendInLoop`: if `outBuffer` is non-empty just append; else
attempt one nonblocking write, on would-block return, on a fatal error run
`handleClose`, otherwise buffer the unwritten tail and enable read+write
interest when the buffer ended up non-empty. -/
def sendInLoop (w : WriteRes) (data : Bytes) (s : ConnState) : ConnState × List Eff :=
  if 0 < s.outBuffer.length then
    ({ s with outBuffer := s.outBuffer ++ data }, [])
  else
    match w with
    | WriteRes.eagain => (s, [Eff.writeSys data])
    | WriteRes.fatal =>
      let p := handleClose s
      (p.1, Eff.writeSys data :: p.2)
    | WriteRes.ok n =>
      let s1 :=
        if n = 0 then { s with outBuffer := s.outBuffer ++ data }
        else if n < data.length then { s with outBuffer := s.outBuffer ++ data.drop n }
        else s
      if 0 < s1.outBuffer.length then
        ({ s1 with writeInterest := true }, [Eff.writeSys data, Eff.enableReadWrite])
      else (s1, [Eff.writeSys data])

/-- `Connection.handleWrite`: `PeekAll` splits the buffered bytes into the
two contiguous halves (`take k`, `drop k` for the ring-determined split `k`);
write the first, `Retrieve n`, write the second when the first was fully
consumed, and revert interest to read-only when the buffer drained empty.
Would-block returns keep the data buffered; other errors run `handleClose`. -/
def handleWrite (k : Nat) (w1 w2 : WriteRes) (s : ConnState) : ConnState × List Eff :=
  let first := s.outBuffer.take k
  let second := s.outBuffer.drop k
  match w1 with
  | WriteRes.eagain => (s, [Eff.writeSys first])
  | WriteRes.fatal =>
    let p := handleClose s
    (p.1, Eff.writeSys first :: p.2)
  | WriteRes.ok n =>
    let s1 := { s with outBuffer := s.outBuffer.drop n }
    if n = first.length ∧ 0 < second.length then
      match w2 with
      | WriteRes.eagain => (s1, [Eff.writeSys first, Eff.writeSys second])
      | WriteRes.fatal =>
        let p := handleClose s1
        (p.1, Eff.writeSys first :: Eff.writeSys second :: p.2)
      | WriteRes.ok m =>
        let s2 := { s1 with outBuffer := s1.outBuffer.drop m }
        if s2.outBuffer.length = 0 then
          ({ s2 with writeInterest := false },
            [Eff.writeSys first, Eff.writeSys second, Eff.enableRead])
        else (s2, [Eff.writeSys first, Eff.writeSys second])
    else
      if s1.outBuffer.length = 0 then
        ({ s1 with writeInterest := false }, [Eff.writeSys first, Eff.enableRead])
      else (s1, [Eff.writeSys first])

/-- `Connection.handlerProtocol`: repeatedly call `Protocol.UnPacket` on the
buffer; stop when context and payload are simultaneously `nil`/empty, else
call `OnMessage` and append the packed reply to the accumulator when the
reply is non-empty.  `unp` maps buffer content to the unpack result plus the
buffer content it leaves behind; `fuel` bounds the number of iterations
modelled (the source loops as long as frames keep coming). -/
def handlerProtocol (unp : Bytes → (Option Nat × Bytes) × Bytes)
    (onMessage : Option Nat → Bytes → Bytes) (pack : Bytes → Bytes) :
    Nat → Bytes → Bytes × Bytes × List Eff
  | 0, buffer => ([], buffer, [])
  | fuel + 1, buffer =>
    let r := unp buffer
    if r.1.1 = none ∧ r.1.2 = [] then ([], r.2, [])
    else
      let sendData := onMessage r.1.1 r.1.2
      let rest := handlerProtocol unp onMessage pack fuel r.2
      ((if 0 < sendData.length then pack sendData else []) ++ rest.1,
        rest.2.1, Eff.onMsg r.1.1 r.1.2 :: rest.2.2)

/-- The sequence of `(ctx, payload)` pairs the framing loop processes: the
successive `UnPacket` results up to (excluding) the first simultaneously
empty pair, within `fuel` iterations. -/
def framesOf (unp : Bytes → (Option Nat × Bytes) × Bytes) :
    Nat → Bytes → List (Option Nat × Bytes)
  | 0, _ => []
  | fuel + 1, buffer =>
    let r := unp buffer
    if r.1.1 = none ∧ r.1.2 = [] then []
    else (r.1.1, r.1.2) :: framesOf unp fuel r.2

/-- `Connection.handleRead`: one nonblocking read into the loop scratch
buffer; zero bytes or a non-EAGAIN error run `handleClose`, EAGAIN returns
silently.  On success the framing loop runs over a transient buffer built
from the scratch bytes when `inBuffer` is empty (a `NewWithData` buffer is
never wrapped, so the `first` half returned by `PeekAll` is its whole
remaining content, which is appended to `inBuffer`), else over `inBuffer`
extended with the new bytes; a non-empty accumulator goes to `sendInLoop`. -/
def handleRead (unp : Bytes → (Option Nat × Bytes) × Bytes)
    (onMessage : Option Nat → Bytes → Bytes) (pack : Bytes → Bytes)
    (fuel : Nat) (r : ReadRes) (w : WriteRes) (s : ConnState) : ConnState × List Eff :=
  match r with
  | ReadRes.eagain => (s, [Eff.readSys])
  | ReadRes.fatal =>
    let p := handleClose s
    (p.1, Eff.readSys :: p.2)
  | ReadRes.ok data =>
    if data.length = 0 then
      let p := handleClose s
      (p.1, Eff.readSys :: p.2)
    else if s.inBuffer.length = 0 then
      let t := handlerProtocol unp onMessage pack fuel data
      let s1 := if 0 < t.2.1.length then { s with inBuffer := s.inBuffer ++ t.2.1 } else s
      if t.1.length ≠ 0 then
        let p := sendInLoop w t.1 s1
        (p.1, Eff.readSys :: (t.2.2 ++ p.2))
      else (s1, Eff.readSys :: t.2.2)
    else
      let t := handlerProtocol unp onMessage pack fuel (s.inBuffer ++ data)
      let s1 := { s with inBuffer := t.2.1 }
      if t.1.length ≠ 0 then
        let p := sendInLoop w t.1 s1
        (p.1, Eff.readSys :: (t.2.2 ++ p.2))
      else (s1, Eff.readSys :: t.2.2)

/-- Readiness bitmask delivered by the poller. -/
structure Ev where
  err : Bool
  read : Bool
  write : Bool
deriving DecidableEq

/-- `Connection.HandleEvent`: ERR runs the terminal transition; otherwise,
only when `outBuffer` is non-empty, WRITE runs the write path, else READ runs
the read path.  When `outBuffer` is empty the source dispatches nothing (the
whole dispatch sits inside the non-empty check). -/
def HandleEvent (unp : Bytes → (Option Nat × Bytes) × Bytes)
    (onMessage : Option Nat → Bytes → Bytes) (pack : Bytes → Bytes)
    (fuel k : Nat) (r : ReadRes) (w1 w2 : WriteRes)
    (ev : Ev) (s : ConnState) : ConnState × List Eff :=
  if ev.err then handleClose s
  else if s.outBuffer.length ≠ 0 then
    if ev.write then handleWrite k w1 w2 s
    else if ev.read then handleRead unp onMessage pack fuel r w1 s
    else (s, [])
  else (s, [])

/-- `Connection.Send`: fail with `ErrConnectionClosed` when not connected,
else queue the pack-then-sendInLoop task onto the owning loop. -/
def Send (b : Bytes) (s : ConnState) : ConnState × List Eff :=
  if s.connected then
    ({ s with tasks := s.tasks ++ [Task.sendT b] }, [Eff.queued (Task.sendT b)])
  else (s, [Eff.closedErr])

/-- `Connection.Close`: fail with `ErrConnectionClosed` when not connected,
else queue the terminal handler onto the owning loop (the flag itself is not
changed here). -/
def Close (s : ConnState) : ConnState × List Eff :=
  if s.connected then
    ({ s with tasks := s.tasks ++ [Task.closeT] }, [Eff.queued Task.closeT])
  else (s, [Eff.closedErr])

/-- `Connection.ShutdownWrite`: unconditionally clear `connected` and issue
the half-close syscall. -/
def ShutdownWrite (s : ConnState) : ConnState × List Eff :=
  ({ s with connected := false }, [Eff.shutdownWR])

/-- The loop pops and runs the head of its task queue: `Close` tasks run
`handleClose`, `Send b` tasks run `sendInLoop` on `protocol.Packet(c, b)`,
with the write outcome supplied by the oracle `w`. -/
def runTask (pack : Bytes → Bytes) (w : WriteRes) (s : ConnState) : ConnState × List Eff :=
  match s.tasks with
  | [] => (s, [])
  | t :: rest =>
    let s0 := { s with tasks := rest }
    match t with
    | Task.closeT => handleClose s0
    | Task.sendT b => sendInLoop w (pack b) s0

/-- One externally triggered operation on the connection: an API call from
any thread, an ERR readiness event, a firing of the idle timer (`expired`
tells whether `now - activeTime ≥ idleTime`, in which case it calls `Close`
and otherwise merely reschedules), or the loop running one queued task. -/
inductive Op
  | closeCall
  | shutdownW
  | errEvent
  | idleTimeout (expired : Bool)
  | sendCall (b : Bytes)
  | runT (w : WriteRes)
deriving DecidableEq

/-- Dispatch one operation. -/
def step (pack : Bytes → Bytes) : Op → ConnState → ConnState × List Eff
  | Op.closeCall, s => Close s
  | Op.shutdownW, s => ShutdownWrite s
  | Op.errEvent, s => handleClose s
  | Op.idleTimeout e, s => if e then Close s else (s, [])
  | Op.sendCall b, s => Send b s
  | Op.runT w, s => runTask pack w s

/-- Run a sequence of operations, concatenating the effect traces. -/
def run (pack : Bytes → Bytes) : List Op → ConnState → ConnState × List Eff
  | [], s => (s, [])
  | op :: ops, s =>
    let p := step pack op s
    let q := run pack ops p.1
    (q.1, p.2 ++ q.2)

/-- Occurrences of one effect in a trace. -/
def countE (e : Eff) : List Eff → Nat
  | [] => 0
  | x :: tl => (if x = e then 1 else 0) + countE e tl

/-- Number of write syscalls attempted in a trace. -/
def countWrites : List Eff → Nat
  | [] => 0
  | Eff.writeSys _ :: tl => countWrites tl + 1
  | _ :: tl => countWrites tl

/-- The poller-interest invariant: write readiness is armed exactly while
there is pending output. -/
def interestInv (s : ConnState) : Prop :=
  s.writeInterest = true ↔ s.outBuffer ≠ []

/-- The four effects of the terminal transition whose multiplicity the spec
pins down. -/
def CloseEff (e : Eff) : Prop :=
  e = Eff.onCloseCb ∨ e = Eff.closeFd ∨ e = Eff.poolPutIn ∨ e = Eff.poolPutOut

/-- A trivial framer: no frame ever completes. -/
def unpNone : Bytes → (Option Nat × Bytes) × Bytes := fun b => ((none, []), b)

/-- Echo message callback. -/
def onMsgEcho : Option Nat → Bytes → Bytes := fun _ d => d

/-- Identity packer (as the websocket plugin's `Packet`). -/
def packId : Bytes → Bytes := fun d => d

/-- A sample framer committing one-byte frames with a context. -/
def unpByte : Bytes → (Option Nat × Bytes) × Bytes
  | [] => ((none, []), [])
  | x :: tl => ((some x, [x]), tl)

/-- Accounting relation for one step started from liveness flag `c`: each
terminal effect occurs exactly once when the step flips the connection from
connected to disconnected and zero times otherwise, and a disconnected
connection never becomes connected again. -/
def TraceOk (c : Bool) (p : ConnState × List Eff) : Prop :=
  (∀ e, CloseEff e →
      countE e p.2 = (if c = true ∧ p.1.connected = false then 1 else 0)) ∧
  (c = false → p.1.connected = false)

lemma countE_append (e : Eff) (l1 l2 : List Eff) :
    countE e (l1 ++ l2) = countE e l1 + countE e l2 := by
  induction l1 with
  | nil => simp [countE]
  | cons x tl ih => simp [countE, ih]; omega

lemma connected_handleClose (s : ConnState) : (handleClose s).1.connected = false := by
  cases hc : s.connected <;> simp [handleClose, hc]

lemma outBuffer_handleClose (s : ConnState) : (handleClose s).1.outBuffer = s.outBuffer := by
  cases hc : s.connected <;> simp [handleClose, hc]

/-- C1: in `HandleEvent`, a readiness event carrying only READ on a connected
connection with empty `outBuffer` dispatches nothing at all: no read syscall
is attempted, no state changes.  The whole dispatch sits inside the
`outBuffer.Length() != 0` branch, contradicting the spec sentence that the
read path runs on READ when there is no pending output. -/
theorem C1_empty_outbuffer_read_ignored :
    HandleEvent unpByte onMsgEcho packId 5 1 (ReadRes.ok [1])
        WriteRes.eagain WriteRes.eagain
        { err := false, read := true, write := false } initConn
      = (initConn, []) := by
  decide

/-- C10: when `sendInLoop` starts with an empty `outBuffer` and the single
nonblocking write would block, the payload is dropped entirely: the state is
unchanged (nothing buffered), and the only effect is the attempted write —
no poller interest change, no terminal transition, no error report. -/
theorem C10_eagain_drops_payload (data : Bytes) (s : ConnState)
    (h : s.outBuffer = []) :
    sendInLoop WriteRes.eagain data s = (s, [Eff.writeSys data]) := by
  simp [sendInLoop, h]

/-- Witness for C10 at a concrete input. -/
theorem C10_eagain_drops_payload_witness :
    sendInLoop WriteRes.eagain [1, 2] initConn = (initConn, [Eff.writeSys [1, 2]]) :=
  C10_eagain_drops_payload [1, 2] initConn rfl

/-- C4 (amended): every `Close` caller that observes `connected == true`
schedules the terminal task and returns success (so several callers can
schedule before the loop runs the first one); callers observing `false` fail
with `ErrConnectionClosed` and schedule nothing; and the terminal handler
re-checks `connected`, doing nothing when it is already false. -/
theorem C4_close_scheduling (s t : ConnState)
    (hs : s.connected = true) (ht : t.connected = false) :
    Close s = ({ s with tasks := s.tasks ++ [Task.closeT] }, [Eff.queued Task.closeT]) ∧
    Close t = (t, [Eff.closedErr]) ∧
    handleClose t = (t, []) := by
  refine ⟨?_, ?_, ?_⟩ <;> simp [Close, handleClose, hs, ht]

/-- Witness for C4's amended statement at concrete states. -/
theorem C4_close_scheduling_witness :
    Close initConn = ({ initConn with tasks := [Task.closeT] }, [Eff.queued Task.closeT]) ∧
    Close { initConn with connected := false }
        = ({ initConn with connected := false }, [Eff.closedErr]) ∧
    handleClose { initConn with connected := false }
        = ({ initConn with connected := false }, []) :=
  C4_close_scheduling initConn { initConn with connected := false } rfl rfl

/-- Counterexample to C4 as stated: two sequential `Close` calls before the
loop runs any task both observe `connected == true`; the second one also
schedules a terminal task and does not fail with `ErrConnectionClosed`. -/
theorem C4_second_close_counterexample :
    (run packId [Op.closeCall, Op.closeCall] initConn).1.tasks
        = [Task.closeT, Task.closeT] ∧
    (run packId [Op.closeCall, Op.closeCall] initConn).2
        = [Eff.queued Task.closeT, Eff.queued Task.closeT] := by
  decide

/-- C5: `Send` fails with `ErrConnectionClosed` and has no other effect when
the connection is down; otherwise it succeeds, performs no synchronous write
on the caller's context, and queues exactly one task onto the owning loop
whose execution applies `protocol.Packet` to the bytes and runs `sendInLoop`
on the result. -/
theorem C5_send_contract (pack : Bytes → Bytes) (w : WriteRes) (b : Bytes)
    (s t u : ConnState) (rest : List Task)
    (hs : s.connected = false) (ht : t.connected = true)
    (hu : u.tasks = Task.sendT b :: rest) :
    Send b s = (s, [Eff.closedErr]) ∧
    Send b t = ({ t with tasks := t.tasks ++ [Task.sendT b] }, [Eff.queued (Task.sendT b)]) ∧
    countWrites (Send b t).2 = 0 ∧
    runTask pack w u = sendInLoop w (pack b) { u with tasks := rest } := by
  refine ⟨?_, ?_, ?_, ?_⟩ <;> simp [Send, hs, ht, countWrites, runTask, hu]

/-- Witness for C5 at concrete inputs. -/
theorem C5_send_contract_witness :
    Send [7] { initConn with connected := false }
        = ({ initConn with connected := false }, [Eff.closedErr]) ∧
    Send [7] initConn
        = ({ initConn with tasks := [Task.sendT [7]] }, [Eff.queued (Task.sendT [7])]) ∧
    countWrites (Send [7] initConn).2 = 0 ∧
    runTask packId WriteRes.eagain { initConn with tasks := [Task.sendT [7]] }
        = sendInLoop WriteRes.eagain (packId [7]) initConn :=
  C5_send_contract packId WriteRes.eagain [7]
    { initConn with connected := false } initConn
    { initConn with tasks := [Task.sendT [7]] } [] rfl rfl rfl

/-- C7: on the read path, a would-block read returns silently with no state
change; a zero-byte read or any other error runs the terminal transition. -/
theorem C7_read_error_handling (unp : Bytes → (Option Nat × Bytes) × Bytes)
    (onM : Option Nat → Bytes → Bytes) (pack : Bytes → Bytes)
    (fuel : Nat) (w : WriteRes) (s : ConnState) (hc : s.connected = true) :
    handleRead unp onM pack fuel ReadRes.eagain w s = (s, [Eff.readSys]) ∧
    ((handleRead unp onM pack fuel (ReadRes.ok []) w s).1.connected = false ∧
      countE Eff.onCloseCb (handleRead unp onM pack fuel (ReadRes.ok []) w s).2 = 1) ∧
    ((handleRead unp onM pack fuel ReadRes.fatal w s).1.connected = false ∧
      countE Eff.onCloseCb (handleRead unp onM pack fuel ReadRes.fatal w s).2 = 1) := by
  refine ⟨rfl, ⟨?_, ?_⟩, ⟨?_, ?_⟩⟩ <;> simp [handleRead, handleClose, hc, countE]

/-- Witness for C7 at concrete inputs. -/
theorem C7_read_error_handling_witness :
    handleRead unpByte onMsgEcho packId 3 ReadRes.eagain WriteRes.eagain initConn
        = (initConn, [Eff.readSys]) ∧
    ((handleRead unpByte onMsgEcho packId 3 (ReadRes.ok []) WriteRes.eagain initConn).1.connected
          = false ∧
      countE Eff.onCloseCb
        (handleRead unpByte onMsgEcho packId 3 (ReadRes.ok []) WriteRes.eagain initConn).2 = 1) ∧
    ((handleRead unpByte onMsgEcho packId 3 ReadRes.fatal WriteRes.eagain initConn).1.connected
          = false ∧
      countE Eff.onCloseCb
        (handleRead unpByte onMsgEcho packId 3 ReadRes.fatal WriteRes.eagain initConn).2 = 1) :=
  C7_read_error_handling unpByte onMsgEcho packId 3 WriteRes.eagain initConn rfl

/-- C6: `sendInLoop` appends to a non-empty `outBuffer` without any syscall;
with an empty `outBuffer` it attempts exactly one nonblocking write, buffers
everything on `n = 0`, buffers exactly `data[n:]` on a short write, buffers
nothing on a full write, and runs the terminal transition on a fatal error. -/
theorem C6_sendInLoop_cases (w : WriteRes) (data : Bytes) (n1 n2 : Nat)
    (s t : ConnState)
    (hs : s.outBuffer ≠ []) (ht : t.outBuffer = []) (htc : t.connected = true)
    (h1 : 0 < n1) (h2 : n1 < data.length) (h3 : data.length ≤ n2) :
    sendInLoop w data s = ({ s with outBuffer := s.outBuffer ++ data }, []) ∧
    countWrites (sendInLoop w data t).2 = 1 ∧
    (sendInLoop (WriteRes.ok 0) data t).1.outBuffer = data ∧
    (sendInLoop (WriteRes.ok n1) data t).1.outBuffer = data.drop n1 ∧
    (sendInLoop (WriteRes.ok n2) data t).1.outBuffer = [] ∧
    (sendInLoop WriteRes.fatal data t).1.connected = false ∧
    countE Eff.onCloseCb (sendInLoop WriteRes.fatal data t).2 = 1 := by
  have hpos : 0 < s.outBuffer.length := List.length_pos.mpr hs
  refine ⟨?_, ?_, ?_, ?_, ?_, ?_, ?_⟩
  · simp [sendInLoop, hpos]
  · cases w <;> simp [sendInLoop, ht, handleClose, htc] <;>
      first
      | (split_ifs <;> simp [countWrites])
      | simp [countWrites]
  · simp [sendInLoop, ht]
    split <;> rfl
  · have h1' : ¬(n1 = 0) := Nat.pos_iff_ne_zero.mp h1
    simp [sendInLoop, ht, h1', h2]
  · rcases Nat.eq_zero_or_pos n2 with hz | hp
    · subst hz
      have hdata : data = [] := List.length_eq_zero.mp (Nat.le_zero.mp h3)
      subst hdata
      simp [sendInLoop, ht]
    · have hne : ¬(n2 = 0) := Nat.pos_iff_ne_zero.mp hp
      have hlt : ¬(n2 < data.length) := by omega
      simp [sendInLoop, ht, hne, hlt]
  · simp [sendInLoop, ht, handleClose, htc]
  · simp [sendInLoop, ht, handleClose, htc, countE]

/-- Witness for C6 at concrete inputs. -/
theorem C6_sendInLoop_cases_witness :
    sendInLoop WriteRes.eagain [1, 2] { initConn with outBuffer := [5] }
        = ({ initConn with outBuffer := [5, 1, 2] }, []) ∧
    countWrites (sendInLoop WriteRes.eagain [1, 2] initConn).2 = 1 ∧
    (sendInLoop (WriteRes.ok 0) [1, 2] initConn).1.outBuffer = [1, 2] ∧
    (sendInLoop (WriteRes.ok 1) [1, 2] initConn).1.outBuffer = [2] ∧
    (sendInLoop (WriteRes.ok 2) [1, 2] initConn).1.outBuffer = [] ∧
    (sendInLoop WriteRes.fatal [1, 2] initConn).1.connected = false ∧
    countE Eff.onCloseCb (sendInLoop WriteRes.fatal [1, 2] initConn).2 = 1 := by
  have h := C6_sendInLoop_cases WriteRes.eagain [1, 2] 1 2
    { initConn with outBuffer := [5] } initConn
    (by decide) rfl rfl (by decide) (by decide) (by decide)
  exact ⟨h.1, h.2.1, h.2.2.1, h.2.2.2.1, h.2.2.2.2.1, h.2.2.2.2.2.1, h.2.2.2.2.2.2⟩

lemma traceOk_handleClose (s : ConnState) : TraceOk s.connected (handleClose s) := by
  unfold TraceOk CloseEff
  cases hc : s.connected <;> simp [handleClose, hc, countE]

lemma traceOk_sendInLoop (w : WriteRes) (d : Bytes) (s : ConnState) :
    TraceOk s.connected (sendInLoop w d s) := by
  unfold TraceOk CloseEff
  cases hc : s.connected <;>
    cases w <;>
      by_cases hb : 0 < s.outBuffer.length <;>
        simp [sendInLoop, handleClose, hb, hc, countE] <;>
          split_ifs <;> simp_all [countE]

lemma traceOk_runTask (pack : Bytes → Bytes) (w : WriteRes) (s : ConnState) :
    TraceOk s.connected (runTask pack w s) := by
  rcases hts : s.tasks with _ | ⟨t, rest⟩
  · unfold TraceOk CloseEff
    cases hc : s.connected <;> simp [runTask, hts, hc, countE]
  · cases t with
    | closeT =>
      have h := traceOk_handleClose { s with tasks := rest }
      simpa [runTask, hts] using h
    | sendT b =>
      have h := traceOk_sendInLoop w (pack b) { s with tasks := rest }
      simpa [runTask, hts] using h

lemma traceOk_step (pack : Bytes → Bytes) (op : Op) (s : ConnState)
    (hop : op ≠ Op.shutdownW) : TraceOk s.connected (step pack op s) := by
  cases op with
  | closeCall =>
    unfold TraceOk CloseEff
    cases hc : s.connected <;> simp [step, Close, hc, countE]
  | shutdownW => exact absurd rfl hop
  | errEvent => exact traceOk_handleClose s
  | idleTimeout e =>
    unfold TraceOk CloseEff
    cases e <;> cases hc : s.connected <;> simp [step, Close, hc, countE]
  | sendCall b =>
    unfold TraceOk CloseEff
    cases hc : s.connected <;> simp [step, Send, hc, countE]
  | runT w => exact traceOk_runTask pack w s

lemma traceOk_run (pack : Bytes → Bytes) (ops : List Op) :
    ∀ s : ConnState, Op.shutdownW ∉ ops → TraceOk s.connected (run pack ops s) := by
  induction ops with
  | nil =>
    intro s _
    unfold TraceOk
    cases hc : s.connected <;> simp [run, hc, countE]
  | cons op ops ih =>
    intro s hmem
    have hop : op ≠ Op.shutdownW := by
      intro h; exact hmem (by simp [h])
    have hops : Op.shutdownW ∉ ops := by
      intro h; exact hmem (by simp [h])
    have h1 := traceOk_step pack op s hop
    have h2 := ih (step pack op s).1 hops
    unfold TraceOk at h1 h2 ⊢
    have hrun1 : (run pack (op :: ops) s).1 = (run pack ops (step pack op s).1).1 := by
      simp [run]
    have hrun2 : (run pack (op :: ops) s).2
        = (step pack op s).2 ++ (run pack ops (step pack op s).1).2 := by
      simp [run]
    constructor
    · intro e he
      have c1 := h1.1 e he
      have c2 := h2.1 e he
      rw [hrun2, countE_append, c1, c2, hrun1]
      by_cases ha : s.connected = true
      · by_cases hb2 : (step pack op s).1.connected = true
        · simp [ha, hb2]
        · have hb' : (step pack op s).1.connected = false := by
            cases hxx : (step pack op s).1.connected
            · rfl
            · exact absurd hxx hb2
          have hc' := h2.2 hb'
          simp [ha, hb', hc']
      · have ha' : s.connected = false := by
          cases hxx : s.connected
          · rfl
          · exact absurd hxx ha
        have hb' := h1.2 ha'
        have hc' := h2.2 hb'
        simp [ha', hb', hc']
    · intro hc
      rw [hrun1]
      exact h2.2 (h1.2 hc)

/-- C2 (amended): with `ShutdownWrite` never called, the terminal effects —
`OnClose`, the kernel `close(fd)`, and each of the two pool returns — occur
exactly once across any combination of `Close` calls, error events, idle
timeouts and loop turns once the connection has transitioned to
disconnected, and zero times while it is still connected.  (A
`ShutdownWrite` clears `connected` without running the terminal handler, so
after it they never occur; see the counterexample.) -/
theorem C2_terminal_effects_once (pack : Bytes → Bytes) (ops : List Op)
    (h : Op.shutdownW ∉ ops) :
    countE Eff.onCloseCb (run pack ops initConn).2
        = (if (run pack ops initConn).1.connected = true then 0 else 1) ∧
    countE Eff.closeFd (run pack ops initConn).2
        = (if (run pack ops initConn).1.connected = true then 0 else 1) ∧
    countE Eff.poolPutIn (run pack ops initConn).2
        = (if (run pack ops initConn).1.connected = true then 0 else 1) ∧
    countE Eff.poolPutOut (run pack ops initConn).2
        = (if (run pack ops initConn).1.connected = true then 0 else 1) := by
  have t := (traceOk_run pack ops initConn h).1
  have conv : ∀ e : Eff, CloseEff e →
      countE e (run pack ops initConn).2
        = (if (run pack ops initConn).1.connected = true then 0 else 1) := by
    intro e he
    rw [t e he]
    cases hc : (run pack ops initConn).1.connected <;> simp [initConn, hc]
  exact ⟨conv _ (Or.inl rfl), conv _ (Or.inr (Or.inl rfl)),
    conv _ (Or.inr (Or.inr (Or.inl rfl))), conv _ (Or.inr (Or.inr (Or.inr rfl)))⟩

/-- Witness for C2's amended statement: a single error event on a fresh
connection fires each terminal effect exactly once. -/
theorem C2_terminal_effects_once_witness :
    countE Eff.onCloseCb (run packId [Op.errEvent] initConn).2
        = (if (run packId [Op.errEvent] initConn).1.connected = true then 0 else 1) ∧
    countE Eff.closeFd (run packId [Op.errEvent] initConn).2
        = (if (run packId [Op.errEvent] initConn).1.connected = true then 0 else 1) ∧
    countE Eff.poolPutIn (run packId [Op.errEvent] initConn).2
        = (if (run packId [Op.errEvent] initConn).1.connected = true then 0 else 1) ∧
    countE Eff.poolPutOut (run packId [Op.errEvent] initConn).2
        = (if (run packId [Op.errEvent] initConn).1.connected = true then 0 else 1) :=
  C2_terminal_effects_once packId [Op.errEvent] (by decide)

/-- Counterexample to C2 as stated: on a connection that was connected, a
`ShutdownWrite` followed by an error event leaves the connection
disconnected while `OnClose`, `close(fd)` and both pool returns have run
zero times — not exactly once. -/
theorem C2_shutdownWrite_counterexample :
    initConn.connected = true ∧
    (run packId [Op.shutdownW, Op.errEvent] initConn).1.connected = false ∧
    countE Eff.onCloseCb (run packId [Op.shutdownW, Op.errEvent] initConn).2 = 0 ∧
    countE Eff.closeFd (run packId [Op.shutdownW, Op.errEvent] initConn).2 = 0 ∧
    countE Eff.poolPutIn (run packId [Op.shutdownW, Op.errEvent] initConn).2 = 0 ∧
    countE Eff.poolPutOut (run packId [Op.shutdownW, Op.errEvent] initConn).2 = 0 := by
  decide

lemma drop_ne_nil_of_halves (l : Bytes) (k n : Nat)
    (h1 : n = (l.take k).length) (h2 : 0 < (l.drop k).length) : l.drop n ≠ [] := by
  have hpos : 0 < (l.drop n).length := by
    simp only [List.length_take, List.length_drop] at *
    omega
  exact List.ne_nil_of_length_pos hpos

lemma interestInv_sendInLoop (w : WriteRes) (d : Bytes) (s : ConnState)
    (h : interestInv s) :
    (sendInLoop w d s).1.connected = true → interestInv (sendInLoop w d s).1 := by
  intro hc
  by_cases hb : 0 < s.outBuffer.length
  · have hne : s.outBuffer ≠ [] := List.ne_nil_of_length_pos hb
    have hi : s.writeInterest = true := h.mpr hne
    simp only [sendInLoop, if_pos hb]
    unfold interestInv
    simp [hi, hne]
  · have hb0 : s.outBuffer = [] :=
      List.eq_nil_of_length_eq_zero (Nat.eq_zero_of_not_pos hb)
    have hi0 : s.writeInterest = false := by
      cases hxx : s.writeInterest
      · rfl
      · exact absurd hb0 (h.mp hxx)
    cases w with
    | eagain =>
      simpa [sendInLoop, hb] using h
    | fatal =>
      have := connected_handleClose s
      simp [sendInLoop, hb] at hc
      rw [this] at hc
      cases hc
    | ok n =>
      simp only [sendInLoop, if_neg hb]
      unfold interestInv
      split_ifs <;> simp_all [List.length_pos, hi0, hb0]

lemma interestInv_handleWrite (k : Nat) (w1 w2 : WriteRes) (s : ConnState)
    (h : interestInv s) :
    (handleWrite k w1 w2 s).1.connected = true →
      interestInv (handleWrite k w1 w2 s).1 := by
  intro hc
  cases w1 with
  | eagain => simpa [handleWrite] using h
  | fatal =>
    have := connected_handleClose s
    simp [handleWrite] at hc
    rw [this] at hc
    cases hc
  | ok n =>
    by_cases hcond : n = (s.outBuffer.take k).length ∧ 0 < (s.outBuffer.drop k).length
    · have hdn : s.outBuffer.drop n ≠ [] :=
        drop_ne_nil_of_halves s.outBuffer k n hcond.1 hcond.2
      have hne : s.outBuffer ≠ [] := by
        intro h0
        exact hdn (by simp [h0])
      have hi : s.writeInterest = true := h.mpr hne
      cases w2 with
      | eagain =>
        simp only [handleWrite, if_pos hcond]
        exact ⟨fun _ => hdn, fun _ => hi⟩
      | fatal =>
        have hcc := connected_handleClose { s with outBuffer := s.outBuffer.drop n }
        simp only [handleWrite, if_pos hcond] at hc
        rw [hcc] at hc
        cases hc
      | ok m =>
        simp only [handleWrite, if_pos hcond]
        split_ifs with hz
        · simp [interestInv, List.eq_nil_of_length_eq_zero hz]
        · have hmm : (s.outBuffer.drop n).drop m ≠ [] := by
            intro h0
            exact hz (by simp [h0])
          exact ⟨fun _ => hmm, fun _ => hi⟩
    · simp only [handleWrite, if_neg hcond]
      split_ifs with hz
      · simp [interestInv, List.eq_nil_of_length_eq_zero hz]
      · have hdn : s.outBuffer.drop n ≠ [] := by
          intro h0
          exact hz (by simp [h0])
        have hne : s.outBuffer ≠ [] := by
          intro h0
          exact hdn (by simp [h0])
        exact ⟨fun _ => hdn, fun _ => h.mpr hne⟩

lemma interestInv_handleRead (unp : Bytes → (Option Nat × Bytes) × Bytes)
    (onM : Option Nat → Bytes → Bytes) (pack : Bytes → Bytes)
    (fuel : Nat) (r : ReadRes) (w : WriteRes) (s : ConnState)
    (h : interestInv s) :
    (handleRead unp onM pack fuel r w s).1.connected = true →
      interestInv (handleRead unp onM pack fuel r w s).1 := by
  intro hc
  cases r with
  | eagain => simpa [handleRead] using h
  | fatal =>
    have := connected_handleClose s
    simp [handleRead] at hc
    rw [this] at hc
    cases hc
  | ok data =>
    by_cases hd : data.length = 0
    · have := connected_handleClose s
      simp [handleRead, hd] at hc
      rw [this] at hc
      cases hc
    · by_cases hib : s.inBuffer.length = 0
      · simp only [handleRead, if_neg hd, if_pos hib] at hc ⊢
        set t := handlerProtocol unp onM pack fuel data with hT
        set s1 := if 0 < t.2.1.length
            then { s with inBuffer := s.inBuffer ++ t.2.1 } else s with hS1
        have hs1 : interestInv s1 := by
          unfold interestInv at h ⊢
          rw [hS1]
          split <;> simpa using h
        split_ifs at hc ⊢ with hout
        · exact interestInv_sendInLoop w t.1 s1 hs1 hc
        · exact hs1
      · simp only [handleRead, if_neg hd, if_neg hib] at hc ⊢
        set t := handlerProtocol unp onM pack fuel (s.inBuffer ++ data) with hT
        have hs1 : interestInv { s with inBuffer := t.2.1 } := by
          unfold interestInv at h ⊢
          simpa using h
        split_ifs at hc ⊢ with hout
        · exact interestInv_sendInLoop w t.1 { s with inBuffer := t.2.1 } hs1 hc
        · exact hs1

lemma interestInv_HandleEvent (unp : Bytes → (Option Nat × Bytes) × Bytes)
    (onM : Option Nat → Bytes → Bytes) (pack : Bytes → Bytes)
    (fuel k : Nat) (r : ReadRes) (w1 w2 : WriteRes) (ev : Ev) (s : ConnState)
    (h : interestInv s) :
    (HandleEvent unp onM pack fuel k r w1 w2 ev s).1.connected = true →
      interestInv (HandleEvent unp onM pack fuel k r w1 w2 ev s).1 := by
  intro hc
  by_cases he : ev.err = true
  · have := connected_handleClose s
    simp [HandleEvent, he] at hc
    rw [this] at hc
    cases hc
  · by_cases hob : s.outBuffer.length ≠ 0
    · by_cases hw : ev.write = true
      · simp only [HandleEvent, if_neg he, if_pos hob, if_pos hw] at hc ⊢
        exact interestInv_handleWrite k w1 w2 s h hc
      · by_cases hr : ev.read = true
        · simp only [HandleEvent, if_neg he, if_pos hob, if_neg hw, if_pos hr] at hc ⊢
          exact interestInv_handleRead unp onM pack fuel r w1 s h hc
        · simpa [HandleEvent, he, hob, hw, hr] using h
    · simpa [HandleEvent, he, hob] using h

lemma sendInLoop_enableRW_iff (w : WriteRes) (d : Bytes) (t : ConnState)
    (ht : t.outBuffer = []) :
    Eff.enableReadWrite ∈ (sendInLoop w d t).2 ↔ (sendInLoop w d t).1.outBuffer ≠ [] := by
  cases w with
  | eagain => simp [sendInLoop, ht]
  | fatal =>
    cases hc : t.connected <;> simp [sendInLoop, ht, handleClose, hc]
  | ok n =>
    simp only [sendInLoop, ht]
    split_ifs <;> simp_all [List.length_pos]

lemma handleWrite_enableRead_iff (k : Nat) (w1 w2 : WriteRes) (u : ConnState)
    (hu : u.outBuffer ≠ []) :
    Eff.enableRead ∈ (handleWrite k w1 w2 u).2 ↔
      (handleWrite k w1 w2 u).1.outBuffer = [] := by
  cases w1 with
  | eagain => simp [handleWrite, hu]
  | fatal =>
    cases hc : u.connected <;> simp [handleWrite, handleClose, hc, hu]
  | ok n =>
    by_cases hcond : n = (u.outBuffer.take k).length ∧ 0 < (u.outBuffer.drop k).length
    · have hdn : u.outBuffer.drop n ≠ [] :=
        drop_ne_nil_of_halves u.outBuffer k n hcond.1 hcond.2
      cases w2 with
      | eagain =>
        simp only [handleWrite, if_pos hcond]
        simp [hdn]
      | fatal =>
        simp only [handleWrite, if_pos hcond]
        cases hc : u.connected <;> simp [handleClose, hc, hdn]
      | ok m =>
        simp only [handleWrite, if_pos hcond]
        split_ifs with hz
        · simp [List.eq_nil_of_length_eq_zero hz]
        · have hmm : (u.outBuffer.drop n).drop m ≠ [] := by
            intro h0
            exact hz (by simp [h0])
          have hlen : 0 < (List.drop m (List.drop n u.outBuffer)).length :=
            Nat.pos_of_ne_zero hz
          simp only [List.length_drop] at hlen
          simp [hmm]
          omega
    · simp only [handleWrite, if_neg hcond]
      split_ifs with hz
      · simp [List.eq_nil_of_length_eq_zero hz]
      · have hdn : u.outBuffer.drop n ≠ [] := by
          intro h0
          exact hz (by simp [h0])
        simp [hdn]

/-- C3: whenever a readiness dispatch returns (and the connection it acted
on is still registered), poller write interest is armed iff `outBuffer` is
non-empty; `sendInLoop` issues `EnableReadWrite` exactly when it leaves
`outBuffer` non-empty after starting it empty; and `handleWrite` issues the
read-only `EnableRead` reversal exactly when the drain empties `outBuffer`. -/
theorem C3_interest_matches_backlog
    (unp : Bytes → (Option Nat × Bytes) × Bytes) (onM : Option Nat → Bytes → Bytes)
    (pack : Bytes → Bytes) (fuel k k2 : Nat) (r : ReadRes)
    (w1 w2 w3 w4 w5 : WriteRes) (ev : Ev) (d : Bytes) (s t u : ConnState)
    (hI : interestInv s) (ht : t.outBuffer = []) (hu : u.outBuffer ≠ []) :
    ((HandleEvent unp onM pack fuel k r w1 w2 ev s).1.connected = true →
      interestInv (HandleEvent unp onM pack fuel k r w1 w2 ev s).1) ∧
    (Eff.enableReadWrite ∈ (sendInLoop w3 d t).2 ↔
      (sendInLoop w3 d t).1.outBuffer ≠ []) ∧
    (Eff.enableRead ∈ (handleWrite k2 w4 w5 u).2 ↔
      (handleWrite k2 w4 w5 u).1.outBuffer = []) :=
  ⟨interestInv_HandleEvent unp onM pack fuel k r w1 w2 ev s hI,
    sendInLoop_enableRW_iff w3 d t ht,
    handleWrite_enableRead_iff k2 w4 w5 u hu⟩

/-- Witness for C3 at concrete inputs. -/
theorem C3_interest_matches_backlog_witness :
    ((HandleEvent unpByte onMsgEcho packId 3 1 (ReadRes.ok [1])
        WriteRes.eagain WriteRes.eagain
        { err := false, read := true, write := false } initConn).1.connected = true →
      interestInv (HandleEvent unpByte onMsgEcho packId 3 1 (ReadRes.ok [1])
        WriteRes.eagain WriteRes.eagain
        { err := false, read := true, write := false } initConn).1) ∧
    (Eff.enableReadWrite ∈ (sendInLoop (WriteRes.ok 1) [1, 2] initConn).2 ↔
      (sendInLoop (WriteRes.ok 1) [1, 2] initConn).1.outBuffer ≠ []) ∧
    (Eff.enableRead ∈
        (handleWrite 1 (WriteRes.ok 1) WriteRes.eagain
          { initConn with outBuffer := [5], writeInterest := true }).2 ↔
      (handleWrite 1 (WriteRes.ok 1) WriteRes.eagain
          { initConn with outBuffer := [5], writeInterest := true }).1.outBuffer = []) :=
  C3_interest_matches_backlog unpByte onMsgEcho packId 3 1 1 (ReadRes.ok [1])
    WriteRes.eagain WriteRes.eagain (WriteRes.ok 1) (WriteRes.ok 1) WriteRes.eagain
    { err := false, read := true, write := false } [1, 2]
    initConn initConn { initConn with outBuffer := [5], writeInterest := true }
    (by unfold interestInv; simp [initConn]) rfl (by decide)

lemma handlerProtocol_frames (unp : Bytes → (Option Nat × Bytes) × Bytes)
    (onM : Option Nat → Bytes → Bytes) (pack : Bytes → Bytes) :
    ∀ (fuel : Nat) (buffer : Bytes),
      (handlerProtocol unp onM pack fuel buffer).2.2
          = (framesOf unp fuel buffer).map (fun p => Eff.onMsg p.1 p.2) ∧
      (handlerProtocol unp onM pack fuel buffer).1
          = ((framesOf unp fuel buffer).map
              (fun p => if 0 < (onM p.1 p.2).length then pack (onM p.1 p.2) else [])).flatten := by
  intro fuel
  induction fuel with
  | zero =>
    intro buffer
    simp [handlerProtocol, framesOf]
  | succ f ih =>
    intro buffer
    by_cases hterm : (unp buffer).1.1 = none ∧ (unp buffer).1.2 = []
    · simp [handlerProtocol, framesOf, hterm]
    · have h1 := (ih (unp buffer).2).1
      have h2 := (ih (unp buffer).2).2
      simp [handlerProtocol, framesOf, hterm, h1, h2]

/-- C8: the framing loop stops exactly on a simultaneously empty
`(frame_ctx, payload)` pair (leaving the rest of the stream untouched); every
non-empty pair triggers one `OnMessage` invocation; and the returned
accumulator is the concatenation, in frame order, of the packed replies of
exactly those frames whose reply is non-empty. -/
theorem C8_framing_loop (unp : Bytes → (Option Nat × Bytes) × Bytes)
    (onM : Option Nat → Bytes → Bytes) (pack : Bytes → Bytes) (fuel : Nat)
    (b1 b1' b2 b2' b3 : Bytes) (c : Option Nat) (d : Bytes)
    (h1 : unp b1 = ((none, []), b1'))
    (h2 : unp b2 = ((c, d), b2'))
    (h3 : ¬(c = none ∧ d = [])) :
    handlerProtocol unp onM pack (fuel + 1) b1 = ([], b1', []) ∧
    (handlerProtocol unp onM pack (fuel + 1) b2).2.2
        = Eff.onMsg c d :: (handlerProtocol unp onM pack fuel b2').2.2 ∧
    (handlerProtocol unp onM pack (fuel + 1) b2).1
        = (if 0 < (onM c d).length then pack (onM c d) else [])
            ++ (handlerProtocol unp onM pack fuel b2').1 ∧
    (handlerProtocol unp onM pack fuel b3).2.2
        = (framesOf unp fuel b3).map (fun p => Eff.onMsg p.1 p.2) ∧
    (handlerProtocol unp onM pack fuel b3).1
        = ((framesOf unp fuel b3).map
            (fun p => if 0 < (onM p.1 p.2).length then pack (onM p.1 p.2) else [])).flatten := by
  refine ⟨?_, ?_, ?_, (handlerProtocol_frames unp onM pack fuel b3).1,
    (handlerProtocol_frames unp onM pack fuel b3).2⟩
  · simp [handlerProtocol, h1]
  · simp [handlerProtocol, h2, h3]
  · simp [handlerProtocol, h2, h3]

/-- Witness for C8 with the one-byte framer. -/
theorem C8_framing_loop_witness :
    handlerProtocol unpByte onMsgEcho packId (2 + 1) [] = ([], [], []) ∧
    (handlerProtocol unpByte onMsgEcho packId (2 + 1) [3, 4]).2.2
        = Eff.onMsg (some 3) [3] :: (handlerProtocol unpByte onMsgEcho packId 2 [4]).2.2 ∧
    (handlerProtocol unpByte onMsgEcho packId (2 + 1) [3, 4]).1
        = (if 0 < (onMsgEcho (some 3) [3]).length then packId (onMsgEcho (some 3) [3]) else [])
            ++ (handlerProtocol unpByte onMsgEcho packId 2 [4]).1 ∧
    (handlerProtocol unpByte onMsgEcho packId 2 [3, 4]).2.2
        = (framesOf unpByte 2 [3, 4]).map (fun p => Eff.onMsg p.1 p.2) ∧
    (handlerProtocol unpByte onMsgEcho packId 2 [3, 4]).1
        = ((framesOf unpByte 2 [3, 4]).map
            (fun p => if 0 < (onMsgEcho p.1 p.2).length
              then packId (onMsgEcho p.1 p.2) else [])).flatten :=
  C8_framing_loop unpByte onMsgEcho packId 2 [] [] [3, 4] [4] [3, 4]
    (some 3) [3] rfl rfl (by decide)

lemma inBuffer_merge (s : ConnState) (x : Bytes) (hs : s.inBuffer = []) :
    (if 0 < x.length then { s with inBuffer := s.inBuffer ++ x } else s)
      = { s with inBuffer := x } := by
  obtain ⟨c0, ib, ob, wi, tk⟩ := s
  have hib : ib = [] := hs
  subst hib
  split_ifs with hx
  · simp
  · have hx0 : x = [] :=
      List.eq_nil_of_length_eq_zero (Nat.eq_zero_of_not_pos (by simpa using hx))
    simp [hx0]

/-- C9: on a successful read of non-zero bytes, the framing loop runs over a
transient buffer holding exactly the scratch bytes when `inBuffer` is empty
(with whatever the framer leaves unconsumed ending up as the new `inBuffer`),
and over `inBuffer` extended with the scratch bytes when it is non-empty (the
unconsumed remainder again staying in `inBuffer`); in both cases the reply
accumulator is handed to `sendInLoop` exactly when it is non-empty. -/
theorem C9_read_framing_plumbing (unp : Bytes → (Option Nat × Bytes) × Bytes)
    (onM : Option Nat → Bytes → Bytes) (pack : Bytes → Bytes)
    (fuel : Nat) (w : WriteRes) (data : Bytes) (s t : ConnState)
    (hd : data ≠ []) (hs : s.inBuffer = []) (ht : t.inBuffer ≠ []) :
    (handleRead unp onM pack fuel (ReadRes.ok data) w s =
      (let fr := handlerProtocol unp onM pack fuel data
       let s1 : ConnState := { s with inBuffer := fr.2.1 }
       if fr.1.length ≠ 0 then
         ((sendInLoop w fr.1 s1).1, Eff.readSys :: (fr.2.2 ++ (sendInLoop w fr.1 s1).2))
       else (s1, Eff.readSys :: fr.2.2))) ∧
    (handleRead unp onM pack fuel (ReadRes.ok data) w t =
      (let fr := handlerProtocol unp onM pack fuel (t.inBuffer ++ data)
       let s1 : ConnState := { t with inBuffer := fr.2.1 }
       if fr.1.length ≠ 0 then
         ((sendInLoop w fr.1 s1).1, Eff.readSys :: (fr.2.2 ++ (sendInLoop w fr.1 s1).2))
       else (s1, Eff.readSys :: fr.2.2))) := by
  have hd' : ¬(data.length = 0) := by simpa [List.length_eq_zero] using hd
  have hs' : s.inBuffer.length = 0 := by simp [hs]
  have ht' : ¬(t.inBuffer.length = 0) := by simpa [List.length_eq_zero] using ht
  constructor
  · simp only [handleRead, if_neg hd', if_pos hs',
      inBuffer_merge s (handlerProtocol unp onM pack fuel data).2.1 hs]
  · simp only [handleRead, if_neg hd', if_neg ht']

/-- Witness for C9 at concrete inputs. -/
theorem C9_read_framing_plumbing_witness :
    (handleRead unpByte onMsgEcho packId 4 (ReadRes.ok [3, 4]) WriteRes.eagain initConn =
      (let fr := handlerProtocol unpByte onMsgEcho packId 4 [3, 4]
       let s1 : ConnState := { initConn with inBuffer := fr.2.1 }
       if fr.1.length ≠ 0 then
         ((sendInLoop WriteRes.eagain fr.1 s1).1,
           Eff.readSys :: (fr.2.2 ++ (sendInLoop WriteRes.eagain fr.1 s1).2))
       else (s1, Eff.readSys :: fr.2.2))) ∧
    (handleRead unpByte onMsgEcho packId 4 (ReadRes.ok [3, 4]) WriteRes.eagain
        { initConn with inBuffer := [9] } =
      (let fr := handlerProtocol unpByte onMsgEcho packId 4
          (({ initConn with inBuffer := [9] } : ConnState).inBuffer ++ [3, 4])
       let s1 : ConnState := { { initConn with inBuffer := [9] } with inBuffer := fr.2.1 }
       if fr.1.length ≠ 0 then
         ((sendInLoop WriteRes.eagain fr.1 s1).1,
           Eff.readSys :: (fr.2.2 ++ (sendInLoop WriteRes.eagain fr.1 s1).2))
       else (s1, Eff.readSys :: fr.2.2))) :=
  C9_read_framing_plumbing unpByte onMsgEcho packId 4 WriteRes.eagain [3, 4]
    initConn { initConn with inBuffer := [9] } (by decide) rfl (by decide)

end FServer
